import Mathlib

/-!
# Verification of the assistance-dashboard filtering pipeline

Shallow embedding of the data pipeline of `app.py`: column detection,
normalization, the four-stage filter engine, the temporal-chart condition,
and the CSV export / reload round trip.  Tables are modelled as a header
(list of column names) plus rows of cells; a cell is `Option String`,
`none` standing for a missing value (pandas `NaN`).
-/

namespace Assistencia

/-- A cell of the table: `none` models a missing value (pandas `NaN`),
`some s` a string value.  Numeric values are modelled by their string form. -/
abbrev Cell := Option String

/-- A table: column names plus rows, each row a list of cells parallel to
`cols` (`df` in `app.py`). -/
structure Table where
  cols : List String
  rows : List (List Cell)
  deriving Repr, DecidableEq

/-- A table is rectangular when every row has exactly one cell per column. -/
def Table.Rect (t : Table) : Prop := ∀ r ∈ t.rows, r.length = t.cols.length

instance (t : Table) : Decidable t.Rect := by
  unfold Table.Rect; infer_instance

/-- Python `str.lower()` on one character, covering ASCII and the Latin-1
uppercase letters (`À`–`Þ` except `×`), which is what Python does on the
alphabets this program meets. -/
def pyLowerChar (c : Char) : Char :=
  if 'A' ≤ c ∧ c ≤ 'Z' then Char.ofNat (c.toNat + 32)
  else if 0xC0 ≤ c.toNat ∧ c.toNat ≤ 0xDE ∧ c.toNat ≠ 0xD7 then Char.ofNat (c.toNat + 32)
  else c

/-- Python `str.lower()` (on the character range above). -/
def pyLower (s : String) : String := String.mk (s.data.map pyLowerChar)

/-- Python `str.strip()`: drop leading and trailing whitespace. -/
def trimList (l : List Char) : List Char :=
  ((l.dropWhile Char.isWhitespace).reverse.dropWhile Char.isWhitespace).reverse

/-- Python `str.strip()` on a string. -/
def strTrim (s : String) : String := String.mk (trimList s.data)

/-- Python `str.replace(old, new)` for one-character `old` and `new` (the
only shape this program uses). -/
def replaceChar (old new : Char) (s : String) : String :=
  String.mk (s.data.map (fun c => if c = old then new else c))

/-- Lexicographic `≤` on code points (Python string comparison). -/
def lexLe : List Char → List Char → Bool
  | [], _ => true
  | _ :: _, [] => false
  | a :: as, b :: bs => if a = b then lexLe as bs else decide (a < b)

/-- Parse a non-empty all-digit character list as a natural number. -/
def toNatList (l : List Char) : Option Nat :=
  if l ≠ [] ∧ l.all Char.isDigit then
    some (l.foldl (fun acc c => 10 * acc + (c.toNat - 48)) 0)
  else none

/-- Split a character list on a separator character. -/
def splitOnChar (sep : Char) : List Char → List (List Char)
  | [] => [[]]
  | c :: cs =>
    let rest := splitOnChar sep cs
    if c = sep then [] :: rest
    else match rest with
      | [] => [[c]]
      | g :: gs => (c :: g) :: gs

/-- Does `p` occur as a contiguous substring starting at some position of `s`? -/
def listInfixOf (p : List Char) : List Char → Bool
  | [] => p.isEmpty
  | c :: tl => p.isPrefixOf (c :: tl) || listInfixOf p tl

/-- Boolean substring test: does `p` occur as a contiguous substring of `s`?
(Python's `in` operator on strings.) -/
def strIsIn (p s : String) : Bool := listInfixOf p.toList s.toList

/-- Python `str(col).strip().lower().replace('ç','c').replace('ã','a').replace('õ','o')`,
the column-name normalization used for the status and department keyword
matches (app.py lines 86, 99). -/
def normCol (s : String) : String :=
  replaceChar 'õ' 'o' (replaceChar 'ã' 'a' (replaceChar 'ç' 'c' (pyLower (strTrim s))))

/-- Status-column keywords (app.py line 87). -/
def statusKeywords : List String := ["status", "situacao", "situacão", "estado"]

/-- Department-column keywords (app.py line 100). -/
def deptKeywords : List String :=
  ["departamento", "setor", "area", "área", "dept", "unidade", "equipe", "time"]

/-- Date-column keywords (app.py line 108; the duplicate is in the source). -/
def dateKeywords : List String := ["data", "dt_", "abertura", "entrada", "registro", "entrada"]

/-- Does a column name match the status keyword set after normalization? -/
def statusColMatch (c : String) : Bool :=
  statusKeywords.any (fun k => strIsIn k (normCol c))

/-- Does a column name match the department keyword set after normalization? -/
def deptColMatch (c : String) : Bool :=
  deptKeywords.any (fun k => strIsIn k (normCol c))

/-- Does a column name match the date keyword set?  The date detection
normalizes with `strip().lower()` only — no diacritic substitution
(app.py line 107). -/
def dateColMatch (c : String) : Bool :=
  dateKeywords.any (fun k => strIsIn k (pyLower (strTrim c)))

/-- Detection of `col_status`: first column (in original order) matching the status
keywords (app.py lines 84–89). -/
def detectStatusCol (cols : List String) : Option String := cols.find? statusColMatch

/-- Detection of `col_departamento` (app.py lines 97–102). -/
def detectDeptCol (cols : List String) : Option String := cols.find? deptColMatch

/-- Detection of `col_data` (app.py lines 105–110). -/
def detectDateCol (cols : List String) : Option String := cols.find? dateColMatch

/-- Index of a named column. -/
def Table.colIdx (t : Table) (name : String) : Option Nat := t.cols.findIdx? (· = name)

/-- The cell of row `r` in column `name` (missing column or short row gives
`none`, which cannot arise on rectangular tables with the column present). -/
def Table.cell (t : Table) (r : List Cell) (name : String) : Cell :=
  match t.cols.findIdx? (· = name) with
  | some i => r.getD i none
  | none => none

/-- The list of values of a named column. -/
def Table.colVals (t : Table) (name : String) : List Cell :=
  t.rows.map (fun r => t.cell r name)

/-- Assignment `df[name] = vals`: pandas column assignment — replaces the column when the
name exists, otherwise appends a new column on the right. -/
def Table.setCol (t : Table) (name : String) (vals : List Cell) : Table :=
  match t.cols.findIdx? (· = name) with
  | some i => { cols := t.cols, rows := t.rows.zipWith (fun r v => r.set i v) vals }
  | none => { cols := t.cols ++ [name], rows := t.rows.zipWith (fun r v => r ++ [v]) vals }

/-- Keep only the rows satisfying `p` (a pandas boolean-mask selection). -/
def Table.filterRows (t : Table) (p : List Cell → Bool) : Table :=
  { cols := t.cols, rows := t.rows.filter p }

/-! ## Calendar dates

Dates are represented by their rata-die day number (day 1 = 0001-01-01,
proleptic Gregorian), and timestamps by seconds. -/

/-- Gregorian leap year. -/
def isLeap (y : Nat) : Bool := (y % 4 == 0 && y % 100 != 0) || y % 400 == 0

/-- Number of days of month `m` (1–12) in year `y`. -/
def daysInMonth (y m : Nat) : Nat :=
  if m = 2 then (if isLeap y then 29 else 28)
  else if m = 4 ∨ m = 6 ∨ m = 9 ∨ m = 11 then 30 else 31

/-- Days of the year before month `m` in a non-leap year. -/
def cumMonthDays (m : Nat) : Nat :=
  [0, 0, 31, 59, 90, 120, 151, 181, 212, 243, 273, 304, 334].getD m 0

/-- Rata-die day number of the calendar date `y-m-d` (day 1 = 0001-01-01). -/
def rataDie (y m d : Nat) : Nat :=
  365 * (y - 1) + ((y - 1) / 4 + (y - 1) / 400 - (y - 1) / 100)
    + cumMonthDays m + (if isLeap y ∧ 2 < m then 1 else 0) + d

/-- Calendar date `(y, m, d)` from a rata-die day number (inverse of
`rataDie` on valid dates). -/
def civilFromDays (rd : Nat) : Nat × Nat × Nat :=
  let s := rd + 305
  let era := s / 146097
  let doe := s % 146097
  let yoe := (doe - doe / 1460 + doe / 36524 - doe / 146096) / 365
  let doy := doe - (365 * yoe + yoe / 4 - yoe / 100)
  let mp := (5 * doy + 2) / 153
  let d := doy - (153 * mp + 2) / 5 + 1
  let m := if mp < 10 then mp + 3 else mp - 9
  let y := yoe + era * 400 + (if m ≤ 2 then 1 else 0)
  (y, m, d)

/-- Left-pad the decimal form of `n` with zeros to width `w`. -/
def padNum (w n : Nat) : String :=
  let s := toString n
  String.mk (List.replicate (w - s.length) '0') ++ s

/-- Rendering `str(pandas.Timestamp)` for a midnight timestamp on day `rd`:
`"YYYY-MM-DD 00:00:00"`. -/
def fmtTimestamp (rd : Nat) : String :=
  let (y, m, d) := civilFromDays rd
  padNum 4 y ++ "-" ++ padNum 2 m ++ "-" ++ padNum 2 d ++ " 00:00:00"

/-- The calendar-date part of a formatted timestamp cell (`.dt.date`,
app.py line 489): the `"YYYY-MM-DD"` prefix. -/
def dataApenas (c : Cell) : String := (c.getD "").take 10

/-- Rata-die day number for `y-m-d` if it is a valid calendar date within
the `pandas.Timestamp` year range, else `none`. -/
def mkDate (d m y : Nat) : Option Nat :=
  if 1678 ≤ y ∧ y ≤ 2261 ∧ 1 ≤ m ∧ m ≤ 12 ∧ 1 ≤ d ∧ d ≤ daysInMonth y m then
    some (rataDie y m d)
  else none

/-- Modelled from the library call
`pd.to_datetime(·, errors='coerce', dayfirst=True)` (app.py lines 211–215)
restricted to slash-separated numeric dates with four-digit years, the format
this program's inputs use: try the day-first reading of `a/b/y` and, when
that is no valid date, fall back to month-first (pandas emits the fallback
for values like `04/13/2024`); any other shape coerces to `NaT` (`none`). -/
def parseDataDayFirst (s : String) : Option Nat :=
  match splitOnChar '/' (trimList s.data) with
  | [a, b, y] =>
    match toNatList a, toNatList b, toNatList y with
    | some da, some mo, some yr =>
      (match mkDate da mo yr with
       | some t => some t
       | none => mkDate mo da yr)
    | _, _, _ => none
  | _ => none

/-- Timestamp (seconds) of midnight on rata-die day `rd`. -/
def daySecs (rd : Nat) : Int := (rd : Int) * 86400

/-- The period selector's five options (app.py lines 179–184). -/
inductive Periodo where
  | todo | dias7 | dias15 | dias30 | dias90
  deriving Repr, DecidableEq

/-- The `dias_map` table (app.py lines 221–227): the day count of a non-all-time
window. -/
def diasMap : Periodo → Option Nat
  | .todo => none
  | .dias7 => some 7
  | .dias15 => some 15
  | .dias30 => some 30
  | .dias90 => some 90

/-! ## Normalizer and filter universes -/

/-- Derivation `df['status_normalizado'] = df[col_status].fillna('').astype(str).str.strip()`
applied to one cell (app.py line 116). -/
def statusNormVal (c : Cell) : String := strTrim (c.getD "")

/-- Derivation `df[col_departamento].fillna('Não especificado').astype(str).str.strip()`
applied to one cell (app.py line 125). -/
def deptNormVal (c : Cell) : String := strTrim (c.getD "Não especificado")

/-- The Normalizer (app.py lines 116–129): derives the
`status_normalizado` column and, when a department column was detected, the
`departamento_normalizado` column (constant `'Todos'` otherwise). -/
def normalizar (t : Table) (colStatus : String) (colDept : Option String) : Table :=
  let t1 := t.setCol "status_normalizado"
    (t.rows.map (fun r => some (statusNormVal (t.cell r colStatus))))
  match colDept with
  | some cd => t1.setCol "departamento_normalizado"
      (t1.rows.map (fun r => some (deptNormVal (t1.cell r cd))))
  | none => t1.setCol "departamento_normalizado" (t1.rows.map (fun _ => some "Todos"))

/-- Elements not yet seen, keeping first occurrences (worker of
`dedupFirst`). -/
def dedupAux {α : Type} [DecidableEq α] (seen : List α) : List α → List α
  | [] => []
  | x :: xs => if x ∈ seen then dedupAux seen xs else x :: dedupAux (x :: seen) xs

/-- Keep the first occurrence of each element (`Series.unique`). -/
def dedupFirst {α : Type} [DecidableEq α] (l : List α) : List α := dedupAux [] l

/-- Insert into a ≤-sorted list of strings. -/
def insertStr (x : String) : List String → List String
  | [] => [x]
  | y :: ys => if lexLe x.data y.data then x :: y :: ys else y :: insertStr x ys

/-- Insertion sort by the lexicographic string order (Python `sorted`). -/
def sortStr : List String → List String
  | [] => []
  | x :: xs => insertStr x (sortStr xs)

/-- The universe `todos_status` (app.py lines 119–120): the distinct
`status_normalizado` values, with `''` and the literal `'nan'` removed,
sorted ascending.  `tN` is the normalized table. -/
def todosStatus (tN : Table) : List String :=
  sortStr ((dedupFirst (tN.colVals "status_normalizado" |>.map (·.getD ""))).filter
    (fun s => s ≠ "" && s ≠ "nan"))

/-- The universe `todos_departamentos` (app.py lines 123–127): empty when no department
column was detected. -/
def todosDepartamentos (colDept : Option String) (tN : Table) : List String :=
  match colDept with
  | some _ =>
    sortStr ((dedupFirst (tN.colVals "departamento_normalizado" |>.map (·.getD ""))).filter
      (fun s => s ≠ "" && s ≠ "nan"))
  | none => []

/-! ## Filter engine -/

/-- Membership `Series.isin(sel)` on one cell: a missing cell never matches. -/
def cellIn (c : Cell) (sel : List String) : Bool :=
  match c with
  | some s => sel.contains s
  | none => false

/-- Department filter (app.py lines 197–200): applied only when a department
column was detected *and* the selected set is non-empty; otherwise the table
passes through whole. -/
def filtroDept (colDept : Option String) (deptSel : List String) (t : Table) : Table :=
  if colDept.isSome ∧ deptSel ≠ [] then
    t.filterRows (fun r => cellIn (t.cell r "departamento_normalizado") deptSel)
  else t

/-- Status filter (app.py lines 203–204): applied only when the selected set
is non-empty. -/
def filtroStatus (statusSel : List String) (t : Table) : Table :=
  if statusSel ≠ [] then
    t.filterRows (fun r => cellIn (t.cell r "status_normalizado") statusSel)
  else t

/-- Date-window filter (app.py lines 207–234): when a date column exists and
the window is not all-time, convert the raw date column (`data_convertida`),
drop the rows whose value did not parse, and keep the rows whose timestamp is
`≥ now − N days`.  `now` is the current time in seconds. -/
def filtroData (colData : Option String) (periodo : Periodo) (now : Int) (t : Table) : Table :=
  match colData, diasMap periodo with
  | some cd, some dias =>
    let parsed := t.rows.map (fun r => parseDataDayFirst ((t.cell r cd).getD ""))
    let t1 := t.setCol "data_convertida"
      (parsed.map (fun p => (p.map fmtTimestamp : Option String)))
    let limite : Int := now - (dias : Int) * 86400
    { cols := t1.cols,
      rows := (t1.rows.zip parsed).filterMap (fun rp =>
        match rp.2 with
        | none => none
        | some rd => if limite ≤ daySecs rd then some rp.1 else none) }
  | _, _ => t

/-- The metacharacters of Python's `re` syntax.  A pattern containing any
of them (other than `.`, which the model below covers) is outside the
modelled regex fragment: theorems about literal behaviour must exclude
them. -/
def regexMeta : List Char :=
  ['.', '^', '$', '*', '+', '?', '\x7b', '\x7d', '[', ']', '\\', '|', '(', ')']

/-- One regular-expression character: `.` matches anything but a newline,
anything else matches itself.  Modelled from the library call
`Series.str.contains(pat)` (default `regex=True`, i.e. `re.search`),
restricted to patterns whose only metacharacter is `.` — patterns using
other entries of `regexMeta` are not modelled, and no theorem relies on
this function's behaviour on them. -/
def reCharMatch (p c : Char) : Bool := if p = '.' then c ≠ '\n' else p = c

/-- Does the pattern match a prefix of the character list? -/
def reMatchHere : List Char → List Char → Bool
  | [], _ => true
  | _ :: _, [] => false
  | p :: ps, c :: cs => reCharMatch p c && reMatchHere ps cs

/-- Python `re.search`: does the pattern match starting at some position?
Faithful to `re.search` only for patterns whose sole metacharacter is `.`
(see `reCharMatch`); on a pattern containing another `regexMeta` character
its semantics diverge from the real engine. -/
def reSearch (ps : List Char) : List Char → Bool
  | [] => reMatchHere ps []
  | c :: cs => reMatchHere ps (c :: cs) || reSearch ps cs

/-- Rendering `str(cell)` as the free-text mask sees it: `astype(str)` renders a
missing value as the string `'nan'` (app.py line 239). -/
def cellStr (c : Cell) : String := c.getD "nan"

/-- Free-text filter (app.py lines 237–243): when the query is non-empty,
keep a row iff the lower-cased query — used as a regular-expression pattern —
matches somewhere in the lower-cased string form of some cell. -/
def filtroBusca (busca : String) (t : Table) : Table :=
  if busca ≠ "" then
    t.filterRows (fun r =>
      r.any (fun c => reSearch (pyLower busca).toList (pyLower (cellStr c)).toList))
  else t

/-- The whole filter engine (app.py lines 195–243), in the source's order:
department, status, date window, free text.  `t` is the normalized table. -/
def aplicarFiltros (colDept colData : Option String) (deptSel statusSel : List String)
    (periodo : Periodo) (busca : String) (now : Int) (t : Table) : Table :=
  filtroBusca busca (filtroData colData periodo now
    (filtroStatus statusSel (filtroDept colDept deptSel t)))

/-- Number of distinct `(calendar date, status)` groups of the filtered
table (`df_evolucao`, app.py line 492). -/
def temporalGroupCount (tF : Table) : Nat :=
  (dedupFirst (tF.rows.map (fun r =>
    (dataApenas (tF.cell r "data_convertida"),
      (tF.cell r "status_normalizado").getD "")))).length

/-- The temporal-chart condition (app.py lines 486 and 494): a date column
was detected, the filtered table still carries the `data_convertida` column,
it is non-empty, and there are at least two `(date, status)` groups. -/
def mostraGraficoTemporal (colData : Option String) (tF : Table) : Bool :=
  colData.isSome && tF.cols.contains "data_convertida" && decide (0 < tF.rows.length)
    && decide (1 < temporalGroupCount tF)

/-- The pipeline from column detection onward (app.py lines 84–243): when no
status column is found the program shows the available column names and
halts (`st.stop()`, lines 91–94), so nothing downstream runs; otherwise the
table is normalized and filtered. -/
def processar (t : Table) (deptSel statusSel : List String) (periodo : Periodo)
    (busca : String) (now : Int) : Except (List String) Table :=
  match detectStatusCol t.cols with
  | none => .error t.cols
  | some cs =>
    let cd := detectDeptCol t.cols
    .ok (aplicarFiltros cd (detectDateCol t.cols) deptSel statusSel periodo busca now
      (normalizar t cs cd))

/-! ## Spec-side definitions

Literal renderings of the specification's words, kept for comparison with
the code-side definitions above. -/

/-- Modelled from the spec's words (§4.4), for comparison with the code: a
row passes iff it satisfies the four predicates conjunctively — Department
Value in the selected set (skipped only when no department column exists),
Status Value in the selected set, the date predicate, and the free-text
predicate read literally as a case-insensitive *substring* test. -/
def specRowPred (t : Table) (colDept colData : Option String)
    (deptSel statusSel : List String) (periodo : Periodo) (busca : String)
    (now : Int) (r : List Cell) : Bool :=
  (colDept.isNone || cellIn (t.cell r "departamento_normalizado") deptSel)
  && cellIn (t.cell r "status_normalizado") statusSel
  && (match colData, diasMap periodo with
      | some cd, some dias =>
        (match parseDataDayFirst ((t.cell r cd).getD "") with
         | none => false
         | some rd => decide (now - (dias : Int) * 86400 ≤ daySecs rd))
      | _, _ => true)
  && (busca == "" || r.any (fun c => strIsIn (pyLower busca) (pyLower (cellStr c))))

/-- Modelled from the spec's words (§4.4): the Filtered Table is exactly the
subsequence of rows satisfying `specRowPred`. -/
def specFilterEngine (colDept colData : Option String) (deptSel statusSel : List String)
    (periodo : Periodo) (busca : String) (now : Int) (t : Table) : Table :=
  t.filterRows (specRowPred t colDept colData deptSel statusSel periodo busca now)

/-- Modelled from the spec's words (§4.4, edge case): "an empty
selected-status … set yields zero rows (explicit empty selection is not
treated as no filter)" — keep a row iff its Status Value is in the selected
set, even when that set is empty. -/
def specFiltroStatus (statusSel : List String) (t : Table) : Table :=
  t.filterRows (fun r => cellIn (t.cell r "status_normalizado") statusSel)

/-- Modelled from the spec's words (§7, FilterWarning): when date parsing
fails for the whole date-filter step, the date filter is *skipped*, leaving
the rows it would have examined in the result. -/
def specFiltroDataSkipOnTotalFailure (colData : Option String) (periodo : Periodo)
    (now : Int) (t : Table) : Table :=
  match colData, diasMap periodo with
  | some cd, some _ =>
    if t.rows.all (fun r => (parseDataDayFirst ((t.cell r cd).getD "")).isNone) then t
    else filtroData colData periodo now t
  | _, _ => t

/-- Modelled from the spec's words (§4.4, free text): keep a row iff the
case-insensitive query is a literal substring of the string form of some
cell. -/
def specFiltroBusca (busca : String) (t : Table) : Table :=
  if busca ≠ "" then
    t.filterRows (fun r => r.any (fun c => strIsIn (pyLower busca) (pyLower (cellStr c))))
  else t

/-- Modelled from the spec's words (§4.5, Temporal Counts): the number of
distinct `(calendar date, Status Value)` groups of a table, the dates read
from the raw date column by the day-first parse. -/
def specTemporalGroupCount (colData : Option String) (tF : Table) : Nat :=
  match colData with
  | some cd =>
    (dedupFirst (tF.rows.filterMap (fun r =>
      (parseDataDayFirst ((tF.cell r cd).getD "")).map
        (fun rd => (rd, (tF.cell r "status_normalizado").getD ""))))).length
  | none => 0

/-! ## Code-side row predicate

The row-level reading of the four filters, used to state what the engine
computes. -/

/-- The row as the free-text filter sees it after the date step: when the
date window is active and the row's date parsed, the `data_convertida` cell
has been appended. -/
def extRow (t : Table) (colData : Option String) (periodo : Periodo) (r : List Cell) :
    List Cell :=
  match colData, diasMap periodo with
  | some cd, some _ =>
    (match parseDataDayFirst ((t.cell r cd).getD "") with
     | some rd => r ++ [some (fmtTimestamp rd)]
     | none => r)
  | _, _ => r

/-- The conjunction of the four filter predicates as the code applies them:
department membership (when a department column exists and the selection is
non-empty), status membership, date-window (parse, drop on failure, cutoff),
and the free-text regular-expression match over all cells including
`data_convertida`. -/
def rowPredCode (t : Table) (colDept colData : Option String)
    (deptSel statusSel : List String) (periodo : Periodo) (busca : String)
    (now : Int) (r : List Cell) : Bool :=
  (colDept.isNone || cellIn (t.cell r "departamento_normalizado") deptSel)
  && cellIn (t.cell r "status_normalizado") statusSel
  && (match colData, diasMap periodo with
      | some cd, some dias =>
        (match parseDataDayFirst ((t.cell r cd).getD "") with
         | none => false
         | some rd => decide (now - (dias : Int) * 86400 ≤ daySecs rd))
      | _, _ => true)
  && (busca == ""
      || (extRow t colData periodo r).any
          (fun c => reSearch (pyLower busca).toList (pyLower (cellStr c)).toList))

/-! ## Helper lemmas -/

lemma filterMap_eq_filter_of {α : Type} (p : α → Bool) (f : α → Option α) :
    ∀ (l : List α), (∀ a ∈ l, f a = if p a then some a else none) →
      l.filterMap f = l.filter p := by
  intro l
  induction l with
  | nil => intro _; rfl
  | cons a l ih =>
    intro h
    have ha := h a (List.mem_cons_self a l)
    have hl := fun b hb => h b (List.mem_cons_of_mem a hb)
    rw [List.filterMap_cons, List.filter_cons, ha, ih hl]
    cases hp : p a <;> simp [hp]

lemma filterMap_congr_mem {α β : Type} (f g : α → Option β) :
    ∀ (l : List α), (∀ a ∈ l, f a = g a) → l.filterMap f = l.filterMap g := by
  intro l
  induction l with
  | nil => intro _; rfl
  | cons a l ih =>
    intro h
    rw [List.filterMap_cons, List.filterMap_cons, h a (List.mem_cons_self a l),
      ih (fun b hb => h b (List.mem_cons_of_mem a hb))]

lemma zipWith_map_self {α β γ : Type} (f : α → β → γ) (g : α → β) :
    ∀ (l : List α), l.zipWith f (l.map g) = l.map (fun a => f a (g a)) := by
  intro l
  induction l with
  | nil => rfl
  | cons a l ih =>
    simp only [List.map_cons, List.zipWith_cons_cons, ih]

lemma zip_map_self {α β : Type} (g : α → β) :
    ∀ (l : List α), l.zip (l.map g) = l.map (fun a => (a, g a)) := by
  intro l
  induction l with
  | nil => rfl
  | cons a l ih =>
    simp only [List.map_cons, List.zip_cons_cons, ih]

lemma find?_first {α : Type} (p : α → Bool) :
    ∀ (l : List α) (c : α), l.find? p = some c →
      ∃ i : Nat, l[i]? = some c ∧ p c = true ∧
        ∀ j : Nat, j < i → ∀ c', l[j]? = some c' → p c' = false := by
  intro l
  induction l with
  | nil => intro c h; simp [List.find?] at h
  | cons a l ih =>
    intro c h
    rw [List.find?_cons] at h
    by_cases hp : p a = true
    · rw [hp] at h; simp only [cond_true, Option.some.injEq] at h
      exact ⟨0, by simp [← h], h ▸ hp, fun j hj => absurd hj (Nat.not_lt_zero j)⟩
    · simp only [Bool.not_eq_true] at hp
      rw [hp] at h; simp only [cond_false] at h
      obtain ⟨i, hget, hpc, hfirst⟩ := ih c h
      refine ⟨i + 1, by simpa using hget, hpc, ?_⟩
      intro j hj c' hget'
      cases j with
      | zero => simp at hget'; exact hget' ▸ hp
      | succ k =>
        exact hfirst k (Nat.lt_of_succ_lt_succ hj) c' (by simpa using hget')

lemma filterMap_filter {α β : Type} (p : α → Bool) (f : α → Option β) :
    ∀ (l : List α), (l.filter p).filterMap f
      = l.filterMap (fun a => if p a then f a else none) := by
  intro l
  induction l with
  | nil => rfl
  | cons a l ih =>
    rw [List.filter_cons, List.filterMap_cons]
    cases hp : p a <;> simp [hp, List.filterMap_cons, ih]

lemma filter_filterMap {α β : Type} (p : β → Bool) (f : α → Option β) :
    ∀ (l : List α), (l.filterMap f).filter p
      = l.filterMap (fun a => (f a).bind (fun b => if p b then some b else none)) := by
  intro l
  induction l with
  | nil => rfl
  | cons a l ih =>
    rw [List.filterMap_cons, List.filterMap_cons]
    cases hf : f a with
    | none => simpa using ih
    | some b =>
      simp only [Option.bind_some]
      cases hp : p b <;> simp [List.filter_cons, hp, ih]

lemma mem_insertStr (a x : String) :
    ∀ (l : List String), a ∈ insertStr x l ↔ a = x ∨ a ∈ l := by
  intro l
  induction l with
  | nil => simp [insertStr]
  | cons y ys ih =>
    rw [insertStr]
    cases hxy : lexLe x.data y.data
    · simp only [Bool.false_eq_true, if_false, List.mem_cons, ih]
      tauto
    · simp [List.mem_cons]

lemma mem_sortStr (a : String) : ∀ (l : List String), a ∈ sortStr l ↔ a ∈ l := by
  intro l
  induction l with
  | nil => simp [sortStr]
  | cons x xs ih =>
    rw [sortStr, mem_insertStr, ih, List.mem_cons]

lemma dedupAux_length_le {α : Type} [DecidableEq α] :
    ∀ (l seen : List α), (dedupAux seen l).length ≤ l.length := by
  intro l
  induction l with
  | nil => intro seen; simp [dedupAux]
  | cons x xs ih =>
    intro seen
    rw [dedupAux]
    by_cases hx : x ∈ seen
    · rw [if_pos hx]
      exact le_trans (ih seen) (Nat.le_succ _)
    · rw [if_neg hx]
      simpa using Nat.succ_le_succ (ih (x :: seen))

lemma dedupFirst_length_le {α : Type} [DecidableEq α] (l : List α) :
    (dedupFirst l).length ≤ l.length :=
  dedupAux_length_le l []

lemma mem_dedupAux {α : Type} [DecidableEq α] (a : α) :
    ∀ (l seen : List α), a ∈ dedupAux seen l → a ∈ l := by
  intro l
  induction l with
  | nil => intro seen h; simp [dedupAux] at h
  | cons x xs ih =>
    intro seen h
    rw [dedupAux] at h
    by_cases hx : x ∈ seen
    · rw [if_pos hx] at h
      exact List.mem_cons_of_mem x (ih seen h)
    · rw [if_neg hx] at h
      rcases List.mem_cons.mp h with h1 | h2
      · exact h1 ▸ List.mem_cons_self x xs
      · exact List.mem_cons_of_mem x (ih (x :: seen) h2)

lemma mem_dedupFirst {α : Type} [DecidableEq α] {a : α} {l : List α}
    (h : a ∈ dedupFirst l) : a ∈ l :=
  mem_dedupAux a l [] h

lemma findIdx?_of_mem {c : String} {cs : List String} (h : c ∈ cs) :
    cs.findIdx? (· = c) = some (cs.findIdx (· = c)) ∧ cs.findIdx (· = c) < cs.length := by
  have hlt : cs.findIdx (· = c) < cs.length :=
    List.findIdx_lt_length.mpr ⟨c, h, by simp⟩
  exact ⟨List.findIdx?_eq_some_iff_findIdx_eq.mpr ⟨hlt, rfl⟩, hlt⟩

/-- Appending a fresh column is transparent to cell lookup in the old
columns. -/
lemma cell_append_fresh {cs : List String} {n : String} {c : String}
    (hc : c ∈ cs) {r : List Cell} (hr : r.length = cs.length) (v : Cell)
    (rows rows' : List (List Cell)) :
    Table.cell ⟨cs ++ [n], rows'⟩ (r ++ [v]) c = Table.cell ⟨cs, rows⟩ r c := by
  obtain ⟨hfind, hlt⟩ := findIdx?_of_mem hc
  unfold Table.cell
  rw [List.findIdx?_append, hfind]
  show (r ++ [v]).getD (cs.findIdx (· = c)) none = r.getD (cs.findIdx (· = c)) none
  exact List.getD_append _ _ _ _ (by omega)

lemma filterRows_cols (t : Table) (p : List Cell → Bool) :
    (t.filterRows p).cols = t.cols := rfl

lemma filtroDept_cols (colDept : Option String) (sel : List String) (t : Table) :
    (filtroDept colDept sel t).cols = t.cols := by
  unfold filtroDept; split <;> rfl

lemma filtroStatus_cols (sel : List String) (t : Table) :
    (filtroStatus sel t).cols = t.cols := by
  unfold filtroStatus; split <;> rfl

lemma filtroBusca_cols (busca : String) (t : Table) :
    (filtroBusca busca t).cols = t.cols := by
  unfold filtroBusca; split <;> rfl

/-- Assigning to a fresh column name appends it on the right. -/
lemma setCol_fresh (t : Table) (name : String) (vals : List Cell)
    (h : name ∉ t.cols) :
    t.setCol name vals
      = ⟨t.cols ++ [name], t.rows.zipWith (fun r v => r ++ [v]) vals⟩ := by
  unfold Table.setCol
  have : t.cols.findIdx? (· = name) = none := by
    rw [List.findIdx?_eq_none_iff]
    intro x hx
    simp only [decide_eq_false_iff_not]
    exact fun he => h (he ▸ hx)
  rw [this]

/-- What the date filter computes when it is active (date column detected,
window not all-time, `data_convertida` fresh): rows whose raw date does not
parse are removed, rows within the window survive in order, each extended
with the formatted `data_convertida` cell. -/
lemma filtroData_active (t : Table) (cd : String) {periodo : Periodo} {dias : Nat}
    (hd : diasMap periodo = some dias) (now : Int)
    (hc : "data_convertida" ∉ t.cols) :
    filtroData (some cd) periodo now t
      = ⟨t.cols ++ ["data_convertida"],
         t.rows.filterMap (fun r =>
           match parseDataDayFirst ((t.cell r cd).getD "") with
           | none => none
           | some rd =>
             if now - (dias : Int) * 86400 ≤ daySecs rd then
               some (r ++ [some (fmtTimestamp rd)])
             else none)⟩ := by
  unfold filtroData
  rw [hd]
  dsimp only
  rw [setCol_fresh _ _ _ hc]
  dsimp only
  refine congrArg (Table.mk (t.cols ++ ["data_convertida"])) ?_
  generalize t.rows = l
  induction l with
  | nil => rfl
  | cons r l ih =>
    simp only [List.map_cons, List.zipWith_cons_cons, List.zip_cons_cons,
      List.filterMap_cons]
    cases hpf : parseDataDayFirst ((t.cell r cd).getD "") with
    | none => simpa only [hpf] using ih
    | some rd =>
      simp only [hpf, Option.map_some']
      by_cases hle : now - (dias : Int) * 86400 ≤ daySecs rd
      · simp only [if_pos hle, ih]
      · simp only [if_neg hle, ih]

lemma filtroData_inactive_todo (colData : Option String) (now : Int) (t : Table) :
    filtroData colData .todo now t = t := by
  unfold filtroData
  cases colData <;> rfl

lemma filtroData_none (periodo : Periodo) (now : Int) (t : Table) :
    filtroData none periodo now t = t := by
  unfold filtroData; rfl

/-! ## Lemmas about the regular-expression model -/

lemma reMatchHere_no_dot (ps : List Char) (h : ∀ p ∈ ps, p ≠ '.') :
    ∀ s : List Char, reMatchHere ps s = ps.isPrefixOf s := by
  induction ps with
  | nil => intro s; cases s <;> rfl
  | cons p ps ih =>
    intro s
    cases s with
    | nil => rfl
    | cons c cs =>
      have hp : p ≠ '.' := h p (List.mem_cons_self p ps)
      have ihs := ih (fun q hq => h q (List.mem_cons_of_mem p hq)) cs
      show (reCharMatch p c && reMatchHere ps cs) = (p == c && ps.isPrefixOf cs)
      rw [ihs]
      unfold reCharMatch
      rw [if_neg hp]
      rfl

lemma reSearch_no_dot (ps : List Char) (h : ∀ p ∈ ps, p ≠ '.') :
    ∀ s : List Char, reSearch ps s = listInfixOf ps s := by
  intro s
  induction s with
  | nil =>
    show reMatchHere ps [] = ps.isEmpty
    cases ps <;> rfl
  | cons c cs ih =>
    show (reMatchHere ps (c :: cs) || reSearch ps cs)
      = (ps.isPrefixOf (c :: cs) || listInfixOf ps cs)
    rw [reMatchHere_no_dot ps h, ih]

/-! ## Claim theorems -/

/-- Input used to refute C2: one row, status `Aberta`. -/
def tabC2 : Table := ⟨["Status"], [[some "Aberta"]]⟩

/-- Table `tabC2` after the Normalizer. -/
def tabC2N : Table := normalizar tabC2 "Status" none

/-- C2, counterexample: with an explicitly empty selected-status set the
engine returns *all* rows (here 1), while the spec's reading
(`specFiltroStatus`) returns 0 rows; an empty selection is treated as the
absence of the filter. -/
theorem c2_empty_selection_cex :
    (filtroStatus [] tabC2N).rows.length = 1
    ∧ (specFiltroStatus [] tabC2N).rows.length = 0
    ∧ (aplicarFiltros none none [] [] .todo "" 0 tabC2N).rows = tabC2N.rows := by
  refine ⟨rfl, rfl, rfl⟩

/-- C2 (amended): an empty selected-department or selected-status set makes
the corresponding filter a no-op — the table passes through whole, it is
*not* narrowed to zero rows. -/
theorem c2_empty_selection_passthrough (colDept : Option String) (t : Table) :
    filtroDept colDept [] t = t ∧ filtroStatus [] t = t := by
  constructor
  · unfold filtroDept
    rw [if_neg (by simp)]
  · unfold filtroStatus
    rw [if_neg (by simp)]

/-- C3: the Column Classifier picks, as the status column, the earliest
column whose normalized name (trim, lower-case, ç→c/ã→a/õ→o) contains one
of the keywords `status`, `situacao`, `situacão`, `estado`; when no column
matches, detection yields `none` and the pipeline halts with the list of
available column names, running nothing downstream. -/
theorem c3_status_detection (t : Table) (dSel sSel : List String)
    (periodo : Periodo) (busca : String) (now : Int) :
    (∀ c, detectStatusCol t.cols = some c →
      ∃ i : Nat, t.cols[i]? = some c ∧ statusColMatch c = true ∧
        ∀ j : Nat, j < i → ∀ c', t.cols[j]? = some c' → statusColMatch c' = false)
    ∧ (detectStatusCol t.cols = none ↔ ∀ c ∈ t.cols, statusColMatch c = false)
    ∧ (detectStatusCol t.cols = none →
        processar t dSel sSel periodo busca now = .error t.cols) := by
  refine ⟨fun c h => find?_first _ _ _ h, ?_, ?_⟩
  · constructor
    · intro h c hc
      have := List.find?_eq_none.mp h c hc
      simpa using this
    · intro h
      exact List.find?_eq_none.mpr (fun x hx => by simp [h x hx])
  · intro h
    unfold processar
    rw [h]

/-- C3, witness: on columns `ID`, `Situação`, `Cliente` the second column is
selected (earliest match); on `ID`, `Cliente` detection fails and the
pipeline halts with the column list. -/
theorem c3_status_detection_witness :
    detectStatusCol ["ID", "Situação", "Cliente"] = some "Situação"
    ∧ processar ⟨["ID", "Cliente"], []⟩ [] [] .todo "" 0 = .error ["ID", "Cliente"] :=
  ⟨by decide,
    (c3_status_detection ⟨["ID", "Cliente"], []⟩ [] [] .todo "" 0).2.2 (by decide)⟩

/-- Input used to refute C5: its only row's date cell is unparseable. -/
def tabC5 : Table := ⟨["Status", "Data"], [[some "A", some "sem data"]]⟩

/-- C5, counterexample: when every row's date fails to parse, the date
filter does not skip itself (as the spec's `FilterWarning` path claims, cf.
`specFiltroDataSkipOnTotalFailure`): it drops every row, leaving zero rows
for the remaining filters. -/
theorem c5_unparseable_dates_cex :
    (filtroData (some "Data") .dias7 0 tabC5).rows = []
    ∧ (specFiltroDataSkipOnTotalFailure (some "Data") .dias7 0 tabC5).rows.length = 1 := by
  refine ⟨rfl, rfl⟩

/-- C5 (amended): unparseable dates are coerced to missing and their rows
dropped, so when *every* row's date fails to parse the date filter yields
the empty table (rather than being skipped); the remaining filters then run
on zero rows.  The warning path only triggers on an exception from the
conversion itself, which the coercing conversion does not raise for
ordinary unparseable values. -/
theorem c5_all_unparseable_drops_all (t : Table) (cd : String) (periodo : Periodo)
    (dias : Nat) (now : Int) (hd : diasMap periodo = some dias)
    (h : ∀ r ∈ t.rows, parseDataDayFirst ((t.cell r cd).getD "") = none) :
    (filtroData (some cd) periodo now t).rows = [] := by
  unfold filtroData
  rw [hd]
  dsimp only
  rw [List.filterMap_eq_nil_iff]
  intro rp hrp
  have h2 := (List.of_mem_zip hrp).2
  obtain ⟨r, hr, hval⟩ := List.mem_map.mp h2
  rw [← hval, h r hr]

/-- C5, witness: a two-row table whose dates are both garbage comes out of
the date filter empty. -/
theorem c5_all_unparseable_witness :
    (filtroData (some "Data") .dias30 1000 ⟨["Data"], [[some "??"], [none]]⟩).rows = [] :=
  c5_all_unparseable_drops_all ⟨["Data"], [[some "??"], [none]]⟩ "Data" .dias30 30 1000
    rfl (by decide)

/-- Any member of a sorted, deduplicated, `''`/`'nan'`-pruned universe is
neither `''` nor `'nan'`. -/
lemma mem_universe_ne {s : String} {vals : List String}
    (h : s ∈ sortStr ((dedupFirst vals).filter (fun v => v ≠ "" && v ≠ "nan"))) :
    s ≠ "" ∧ s ≠ "nan" := by
  rw [mem_sortStr] at h
  have h2 := (List.mem_filter.mp h).2
  simp only [Bool.and_eq_true, decide_eq_true_eq] at h2
  exact h2

/-- Input used to refute C10: the single row's status is the literal text
`nan`. -/
def tabC10 : Table := ⟨["Status"], [[some " nan "]]⟩

/-- Table `tabC10` after the Normalizer. -/
def tabC10N : Table := normalizar tabC10 "Status" none

/-- C10, counterexample: a table whose only status value is the literal
`nan` has an *empty* universe of selectable statuses, so "select all"
selects the empty set, the status filter is skipped, and the `nan` row is
*not* removed. -/
theorem c10_nan_universe_cex :
    todosStatus tabC10N = []
    ∧ (filtroStatus (todosStatus tabC10N) tabC10N).rows = tabC10N.rows
    ∧ tabC10N.rows.length = 1
    ∧ tabC10N.cell (tabC10N.rows.getD 0 []) "status_normalizado" = some "nan" := by
  decide

/-- C10 (amended): the literal text `nan` is always excluded from the
status and department universes; and *when the status universe is
non-empty*, filtering with the full universe selected removes every row
whose Status Value is `nan`. -/
theorem c10_nan_excluded (tN : Table) (colDept : Option String) :
    "nan" ∉ todosStatus tN
    ∧ "nan" ∉ todosDepartamentos colDept tN
    ∧ (todosStatus tN ≠ [] →
        ∀ r ∈ (filtroStatus (todosStatus tN) tN).rows,
          tN.cell r "status_normalizado" ≠ some "nan") := by
  refine ⟨fun h => (mem_universe_ne h).2 rfl, ?_, ?_⟩
  · cases colDept with
    | none => exact fun h => (List.not_mem_nil "nan") h
    | some cd => exact fun h => (mem_universe_ne h).2 rfl
  · intro hne r hr
    unfold filtroStatus at hr
    rw [if_pos hne] at hr
    have hp := (List.mem_filter.mp hr).2
    cases hcell : tN.cell r "status_normalizado" with
    | none => rw [hcell] at hp; exact absurd hp (by simp [cellIn])
    | some s =>
      rw [hcell] at hp
      have hs : s ∈ todosStatus tN := by
        have : List.elem s (todosStatus tN) = true := hp
        exact List.elem_iff.mp this
      have := (mem_universe_ne (s := s) (by
        unfold todosStatus at hs; exact hs)).2
      intro he
      injection he with he2
      exact this he2

/-- Table with a non-`nan` status, used to witness C10's amended claim. -/
def tabC10W : Table := normalizar ⟨["Status"], [[some "A"], [some "nan"]]⟩ "Status" none

/-- C10, witness: with universe `["A"]` (non-empty), the surviving row's
status is not the literal `nan`. -/
theorem c10_nan_excluded_witness :
    tabC10W.cell [some "A", some "A", some "Todos"] "status_normalizado" ≠ some "nan" :=
  (c10_nan_excluded tabC10W none).2.2 (by decide)
    [some "A", some "A", some "Todos"] (by decide)

lemma setCol_fresh_map (t : Table) (name : String) (f : List Cell → Cell)
    (h : name ∉ t.cols) :
    t.setCol name (t.rows.map f)
      = ⟨t.cols ++ [name], t.rows.map (fun r => r ++ [f r])⟩ := by
  rw [setCol_fresh _ _ _ h, zipWith_map_self]

lemma rect_append_col (t : Table) (name : String) (f : List Cell → Cell)
    (hrect : t.Rect) :
    Table.Rect ⟨t.cols ++ [name], t.rows.map (fun r => r ++ [f r])⟩ := by
  intro r hr
  obtain ⟨r0, hr0, rfl⟩ := List.mem_map.mp hr
  simp [hrect r0 hr0]

lemma colVals_append_col (t : Table) (name : String) (f : List Cell → Cell)
    (hrect : t.Rect) (c : String) (hc : c ∈ t.cols) :
    Table.colVals ⟨t.cols ++ [name], t.rows.map (fun r => r ++ [f r])⟩ c
      = t.colVals c := by
  unfold Table.colVals
  rw [List.map_map]
  apply List.map_congr_left
  intro r hr
  exact cell_append_fresh hc (hrect r hr) (f r) t.rows t.rows

/-- Input used to refute C9: the uploaded table already has a column with
the reserved name `status_normalizado`. -/
def tabC9 : Table := ⟨["status_normalizado"], [[some "  x  "]]⟩

/-- C9, counterexample: a loaded table whose own column is named
`status_normalizado` is matched as the status column and then *overwritten*
by the Normalizer (its value `"  x  "` becomes the trimmed `"x"`), so not
every original raw column survives unchanged. -/
theorem c9_reserved_name_cex :
    detectStatusCol tabC9.cols = some "status_normalizado"
    ∧ (normalizar tabC9 "status_normalizado" none).colVals "status_normalizado"
        ≠ tabC9.colVals "status_normalizado" := by
  decide

/-- C9 (amended): provided the loaded table uses neither of the reserved
derived names `status_normalizado` and `departamento_normalizado`, the
Normalizer leaves every original column's values unchanged. -/
theorem c9_originals_unchanged (t : Table) (cs : String) (colDept : Option String)
    (hrect : t.Rect) (h1 : "status_normalizado" ∉ t.cols)
    (h2 : "departamento_normalizado" ∉ t.cols) :
    ∀ c ∈ t.cols, (normalizar t cs colDept).colVals c = t.colVals c := by
  intro c hc
  unfold normalizar
  rw [setCol_fresh_map t _ _ h1]
  have h2' : "departamento_normalizado"
      ∉ t.cols ++ ["status_normalizado"] := by
    intro hmem
    rcases List.mem_append.mp hmem with hmem | hmem
    · exact h2 hmem
    · simp at hmem
  have hrect1 := rect_append_col t "status_normalizado"
    (fun r => some (statusNormVal (t.cell r cs))) hrect
  have hc1 : c ∈ t.cols ++ ["status_normalizado"] := List.mem_append_left _ hc
  cases colDept with
  | none =>
    dsimp only
    rw [setCol_fresh_map _ _ _ h2',
      colVals_append_col _ _ _ hrect1 c hc1, colVals_append_col t _ _ hrect c hc]
  | some cd =>
    dsimp only
    rw [setCol_fresh_map _ _ _ h2',
      colVals_append_col _ _ _ hrect1 c hc1, colVals_append_col t _ _ hrect c hc]

/-- C9, witness: on a one-column table named `Status` the Normalizer leaves
the original column's values intact. -/
theorem c9_originals_unchanged_witness :
    (normalizar ⟨["Status"], [[some " A "]]⟩ "Status" none).colVals "Status"
      = Table.colVals ⟨["Status"], [[some " A "]]⟩ "Status" :=
  c9_originals_unchanged ⟨["Status"], [[some " A "]]⟩ "Status" none
    (by decide) (by decide) (by decide) "Status" (by decide)

/-- Input used to refute C6: the only row has a cell `abc`. -/
def tabC6 : Table := ⟨["Status", "Cliente"], [[some "A", some "abc"]]⟩

/-- Table `tabC6` after the Normalizer. -/
def tabC6N : Table := normalizar tabC6 "Status" none

/-- C6, counterexample: the free-text query is used as a regular
expression, not a literal substring — the query `a.c` keeps the row whose
cell is `abc` (the `.` matches `b`), while the spec's literal-substring
reading (`specFiltroBusca`) drops it. -/
theorem c6_regex_cex :
    (filtroBusca "a.c" tabC6N).rows.length = 1
    ∧ (specFiltroBusca "a.c" tabC6N).rows.length = 0 := by
  decide

/-- C6 (amended): for queries whose lower-cased form contains no regular
expression metacharacter at all (no character of `regexMeta`, so none of
`. ^ $ * + ? \x7b \x7d [ ] \ | ( )` — on that fragment `re.search` degenerates
to literal search), the free-text filter is exactly the case-insensitive
literal-substring filter over the string forms of all cells, derived
columns included. -/
theorem c6_literal_substring (busca : String) (t : Table)
    (h : ∀ c ∈ (pyLower busca).data, c ∉ regexMeta) :
    filtroBusca busca t = specFiltroBusca busca t := by
  have hnd : ∀ c ∈ (pyLower busca).data, c ≠ '.' := by
    intro c hc he
    exact h c hc (he ▸ (by decide : ('.' : Char) ∈ regexMeta))
  unfold filtroBusca specFiltroBusca
  by_cases hb : busca = ""
  · rw [if_neg (by simp [hb]), if_neg (by simp [hb])]
  · rw [if_pos hb, if_pos hb]
    unfold Table.filterRows
    have key : (fun c => reSearch (pyLower busca).toList (pyLower (cellStr c)).toList)
        = (fun c => strIsIn (pyLower busca) (pyLower (cellStr c))) := by
      funext c
      exact reSearch_no_dot (pyLower busca).toList hnd (pyLower (cellStr c)).toList
    rw [key]

/-- Table used to witness C6's amended claim. -/
def tabC6W : Table :=
  normalizar ⟨["Status", "Cliente"], [[some "A", some "Ana"], [some "B", some "Bruno"]]⟩
    "Status" none

/-- C6, witness: for the metacharacter-free query `ana` the code filter and
the literal-substring filter agree (both keep exactly the `Ana` row). -/
theorem c6_literal_substring_witness :
    filtroBusca "ana" tabC6W = specFiltroBusca "ana" tabC6W
    ∧ (filtroBusca "ana" tabC6W).rows.length = 1 :=
  ⟨c6_literal_substring "ana" tabC6W (by decide), by decide⟩

/-- Table used to refute C7: a date column and two distinct
(date, status) groups. -/
def tabC7 : Table :=
  ⟨["Status", "Data"],
   [[some "A", some "01/03/2024"], [some "B", some "02/03/2024"]]⟩

/-- Table `tabC7` normalized and run through the engine with everything selected,
the all-time window, and no query. -/
def tabC7F : Table :=
  aplicarFiltros none (some "Data") []
    (todosStatus (normalizar tabC7 "Status" none)) .todo "" 0
    (normalizar tabC7 "Status" none)

/-- C7, counterexample: a detected date column and two distinct
(date, status) groups do *not* suffice for the temporal chart — with the
all-time window the `data_convertida` column is never created, so the chart
is not rendered. -/
theorem c7_alltime_cex :
    detectDateCol tabC7.cols = some "Data"
    ∧ 2 ≤ specTemporalGroupCount (some "Data") tabC7F
    ∧ mostraGraficoTemporal (some "Data") tabC7F = false := by
  decide

/-- C7 (amended): the temporal chart is produced exactly when a date column
was detected, the selected window is *not* all-time, and the filtered table
has at least two distinct (date, status) groups. -/
theorem c7_chart_condition (t : Table) (colDept colData : Option String)
    (dSel sSel : List String) (periodo : Periodo) (busca : String) (now : Int)
    (hc : "data_convertida" ∉ t.cols) :
    mostraGraficoTemporal colData
        (aplicarFiltros colDept colData dSel sSel periodo busca now t)
      = (colData.isSome && decide (periodo ≠ Periodo.todo)
          && decide (1 < temporalGroupCount
              (aplicarFiltros colDept colData dSel sSel periodo busca now t))) := by
  cases colData with
  | none => rfl
  | some cd =>
    by_cases hp : periodo = Periodo.todo
    · subst hp
      have hcols : (aplicarFiltros colDept (some cd) dSel sSel .todo busca now t).cols
          = t.cols := by
        unfold aplicarFiltros
        rw [filtroBusca_cols, filtroData_inactive_todo, filtroStatus_cols,
          filtroDept_cols]
      unfold mostraGraficoTemporal
      rw [hcols]
      have hcont : t.cols.contains "data_convertida" = false := by
        cases hcc : t.cols.contains "data_convertida"
        · rfl
        · exact absurd (List.elem_iff.mp hcc) hc
      rw [hcont]
      simp
    · obtain ⟨dias, hdias⟩ : ∃ d, diasMap periodo = some d := by
        cases periodo with
        | todo => exact absurd rfl hp
        | dias7 => exact ⟨7, rfl⟩
        | dias15 => exact ⟨15, rfl⟩
        | dias30 => exact ⟨30, rfl⟩
        | dias90 => exact ⟨90, rfl⟩
      have h2 : (filtroStatus sSel (filtroDept colDept dSel t)).cols = t.cols := by
        rw [filtroStatus_cols, filtroDept_cols]
      have hcols : (aplicarFiltros colDept (some cd) dSel sSel periodo busca now t).cols
          = t.cols ++ ["data_convertida"] := by
        unfold aplicarFiltros
        rw [filtroBusca_cols]
        rw [filtroData_active _ cd hdias now (by rw [h2]; exact hc)]
        rw [h2]
      unfold mostraGraficoTemporal
      rw [hcols]
      have hcont : (t.cols ++ ["data_convertida"]).contains "data_convertida" = true :=
        List.elem_iff.mpr (List.mem_append_right _ (by simp))
      rw [hcont]
      have hlen : temporalGroupCount
          (aplicarFiltros colDept (some cd) dSel sSel periodo busca now t)
          ≤ (aplicarFiltros colDept (some cd) dSel sSel periodo busca now t).rows.length := by
        unfold temporalGroupCount
        exact le_trans (dedupFirst_length_le _) (le_of_eq (List.length_map _ _))
      have hps : decide (periodo ≠ Periodo.todo) = true := by simp [hp]
      rw [hps]
      by_cases hg : 1 < temporalGroupCount
          (aplicarFiltros colDept (some cd) dSel sSel periodo busca now t)
      · have h0 : 0 < (aplicarFiltros colDept (some cd) dSel sSel periodo busca now t).rows.length := by
          omega
        simp [hg, h0]
      · simp [hg]

/-- Table used to witness C7's amended claim. -/
def tabC7W : Table := normalizar tabC7 "Status" none

/-- C7, witness: with the 90-day window at a reference time shortly after
the data's dates, the chart condition evaluates per the amended rule (two
groups exist and the window is not all-time, so the chart shows). -/
theorem c7_chart_condition_witness :
    mostraGraficoTemporal (some "Data")
        (aplicarFiltros none (some "Data") [] (todosStatus tabC7W) .dias90 ""
          ((rataDie 2024 3 5 : Int) * 86400) tabC7W)
      = (Option.isSome (some "Data") && decide (Periodo.dias90 ≠ Periodo.todo)
          && decide (1 < temporalGroupCount
              (aplicarFiltros none (some "Data") [] (todosStatus tabC7W) .dias90 ""
                ((rataDie 2024 3 5 : Int) * 86400) tabC7W))) :=
  c7_chart_condition tabC7W none (some "Data") [] (todosStatus tabC7W) .dias90 ""
    ((rataDie 2024 3 5 : Int) * 86400) (by decide)

/-- C4: when a date column exists and the window is `N ∈ {7,15,30,90}`
days, the date filter (viewed on the original columns) is exactly the
order-preserving restriction to rows whose raw date parses — day before
month, as `parseDataDayFirst "03/04/2024" = 3 April 2024` shows — and whose
parsed date is at least `now − N` days; rows that fail to parse are removed
entirely. -/
theorem c4_date_window (t : Table) (cd : String) (periodo : Periodo) (dias : Nat)
    (now : Int) (hd : diasMap periodo = some dias) (hrect : t.Rect)
    (hc : "data_convertida" ∉ t.cols) :
    (filtroData (some cd) periodo now t).rows.map (fun r => r.take t.cols.length)
      = t.rows.filter (fun r =>
          match parseDataDayFirst ((t.cell r cd).getD "") with
          | none => false
          | some rd => decide (now - (dias : Int) * 86400 ≤ daySecs rd))
    ∧ parseDataDayFirst "03/04/2024" = some (rataDie 2024 4 3) := by
  constructor
  · rw [filtroData_active t cd hd now hc]
    dsimp only
    rw [List.map_filterMap]
    apply filterMap_eq_filter_of
    intro r hr
    cases hpf : parseDataDayFirst ((t.cell r cd).getD "") with
    | none => rfl
    | some rd =>
      dsimp only
      by_cases hle : now - (dias : Int) * 86400 ≤ daySecs rd
      · rw [if_pos hle, if_pos (by simp [hle])]
        have : (r ++ [(some (fmtTimestamp rd) : Cell)]).take t.cols.length = r := by
          rw [List.take_append_of_le_length (le_of_eq (hrect r hr).symm)]
          rw [← hrect r hr]
          exact List.take_length r
        simp [this]
      · rw [if_neg hle, if_neg (by simp [hle])]
        rfl
  · decide

/-- Table for the C4 witness: the spec's three-row scenario. -/
def tabC4 : Table :=
  ⟨["Data"], [[some "01/03/2024"], [some "15/02/2024"], [some "20/02/2024"]]⟩

/-- C4, witness: the 7-day window evaluated at 2024-03-05 keeps exactly the
row dated 01/03/2024. -/
theorem c4_date_window_witness :
    ((filtroData (some "Data") .dias7 ((rataDie 2024 3 5 : Int) * 86400) tabC4).rows.map
        (fun r => r.take tabC4.cols.length)
      = tabC4.rows.filter (fun r =>
          match parseDataDayFirst ((tabC4.cell r "Data").getD "") with
          | none => false
          | some rd =>
            decide ((rataDie 2024 3 5 : Int) * 86400 - (7 : Int) * 86400 ≤ daySecs rd))
      ∧ parseDataDayFirst "03/04/2024" = some (rataDie 2024 4 3))
    ∧ (filtroData (some "Data") .dias7 ((rataDie 2024 3 5 : Int) * 86400) tabC4).rows.length = 1 :=
  ⟨c4_date_window tabC4 "Data" .dias7 7 ((rataDie 2024 3 5 : Int) * 86400) rfl
    (by decide) (by decide), by decide⟩

lemma cell_filterRows (t : Table) (p : List Cell → Bool) (r : List Cell)
    (n : String) : (t.filterRows p).cell r n = t.cell r n := rfl

lemma filterRows_filterRows (t : Table) (p q : List Cell → Bool) :
    (t.filterRows p).filterRows q = t.filterRows (fun r => q r && p r) := by
  unfold Table.filterRows
  rw [List.filter_filter]

lemma filterRows_true (t : Table) (p : List Cell → Bool)
    (h : ∀ r, p r = true) : t.filterRows p = t := by
  unfold Table.filterRows
  have : p = fun _ => true := funext h
  rw [this, List.filter_true]

lemma filtroDept_as_filter (colDept : Option String) (dSel : List String)
    (t : Table) (h : colDept = none ∨ dSel ≠ []) :
    filtroDept colDept dSel t = t.filterRows (fun r =>
      colDept.isNone || cellIn (t.cell r "departamento_normalizado") dSel) := by
  unfold filtroDept
  cases colDept with
  | none =>
    rw [if_neg (by simp)]
    exact (filterRows_true t _ (fun r => rfl)).symm
  | some cd =>
    have hd : dSel ≠ [] := h.resolve_left (by simp)
    rw [if_pos ⟨by simp, hd⟩]
    rfl

lemma filtroStatus_as_filter (sSel : List String) (t : Table) (hs : sSel ≠ []) :
    filtroStatus sSel t = t.filterRows (fun r =>
      cellIn (t.cell r "status_normalizado") sSel) := by
  unfold filtroStatus
  rw [if_pos hs]

lemma filtroBusca_as_filter (busca : String) (t : Table) :
    filtroBusca busca t = t.filterRows (fun r =>
      (busca == "")
        || r.any (fun c => reSearch (pyLower busca).toList (pyLower (cellStr c)).toList)) := by
  unfold filtroBusca
  by_cases hb : busca = ""
  · rw [if_neg (by simp [hb])]
    refine (filterRows_true t _ (fun r => ?_)).symm
    have : (busca == "") = true := by simp [hb]
    rw [this, Bool.true_or]
  · rw [if_pos hb]
    have : (busca == "") = false := by simp [hb]
    unfold Table.filterRows
    simp only [this, Bool.false_or]

lemma map_take_filter_of_rect (t : Table) (hrect : t.Rect) (q : List Cell → Bool) :
    (t.rows.filter q).map (fun r => r.take t.cols.length) = t.rows.filter q := by
  have h : ∀ r ∈ t.rows.filter q,
      r.take t.cols.length = id r := by
    intro r hr
    have := hrect r (List.mem_of_mem_filter hr)
    rw [← this]
    exact List.take_length r
  rw [List.map_congr_left h, List.map_id]

/-- C1 (amended): for every selection whose status set is non-empty and —
when a department column exists — whose department set is non-empty, the
Filtered Table (viewed on the input's columns) is exactly the
order-preserving restriction of the input table to the rows satisfying the
four filter predicates conjunctively (`rowPredCode`); in particular it is a
subsequence (hence subset) of the input rows. -/
theorem c1_filter_engine (t : Table) (colDept colData : Option String)
    (dSel sSel : List String) (periodo : Periodo) (busca : String) (now : Int)
    (hrect : t.Rect) (hc : "data_convertida" ∉ t.cols)
    (hs : sSel ≠ []) (hdep : colDept = none ∨ dSel ≠ []) :
    ((aplicarFiltros colDept colData dSel sSel periodo busca now t).rows.map
        (fun r => r.take t.cols.length))
      = t.rows.filter (rowPredCode t colDept colData dSel sSel periodo busca now)
    ∧ ((aplicarFiltros colDept colData dSel sSel periodo busca now t).rows.map
        (fun r => r.take t.cols.length)).Sublist t.rows := by
  have main : ((aplicarFiltros colDept colData dSel sSel periodo busca now t).rows.map
        (fun r => r.take t.cols.length))
      = t.rows.filter (rowPredCode t colDept colData dSel sSel periodo busca now) := by
    unfold aplicarFiltros
    rw [filtroDept_as_filter _ _ _ hdep, filtroStatus_as_filter _ _ hs,
      filterRows_filterRows]
    simp only [cell_filterRows]
    cases colData with
    | none =>
      rw [filtroData_none, filtroBusca_as_filter, filterRows_filterRows]
      show ((t.rows.filter _).map _) = _
      rw [map_take_filter_of_rect t hrect]
      apply List.filter_congr
      intro r hr
      unfold rowPredCode extRow
      generalize (colDept.isNone
        || cellIn (t.cell r "departamento_normalizado") dSel) = b1
      generalize cellIn (t.cell r "status_normalizado") sSel = b2
      generalize ((busca == "")
        || r.any (fun c => reSearch (pyLower busca).toList (pyLower (cellStr c)).toList)) = b3
      cases b1 <;> cases b2 <;> cases b3 <;> rfl
    | some cd =>
      by_cases hp : periodo = Periodo.todo
      · subst hp
        rw [filtroData_inactive_todo, filtroBusca_as_filter, filterRows_filterRows]
        show ((t.rows.filter _).map _) = _
        rw [map_take_filter_of_rect t hrect]
        apply List.filter_congr
        intro r hr
        unfold rowPredCode extRow
        simp only [diasMap]
        generalize (colDept.isNone
          || cellIn (t.cell r "departamento_normalizado") dSel) = b1
        generalize cellIn (t.cell r "status_normalizado") sSel = b2
        generalize ((busca == "")
          || r.any (fun c => reSearch (pyLower busca).toList (pyLower (cellStr c)).toList)) = b3
        cases b1 <;> cases b2 <;> cases b3 <;> rfl
      · obtain ⟨dias, hdias⟩ : ∃ d, diasMap periodo = some d := by
          cases periodo with
          | todo => exact absurd rfl hp
          | dias7 => exact ⟨7, rfl⟩
          | dias15 => exact ⟨15, rfl⟩
          | dias30 => exact ⟨30, rfl⟩
          | dias90 => exact ⟨90, rfl⟩
        rw [filtroData_active
          (t.filterRows fun r =>
            cellIn (t.cell r "status_normalizado") sSel
              && (colDept.isNone || cellIn (t.cell r "departamento_normalizado") dSel))
          cd hdias now hc, filtroBusca_as_filter]
        simp only [cell_filterRows]
        show ((((t.rows.filter _).filterMap _).filter _).map _) = _
        rw [filterMap_filter, filter_filterMap, List.map_filterMap]
        apply filterMap_eq_filter_of
        intro r hr
        unfold rowPredCode extRow
        simp only [hdias]
        cases h2 : cellIn (t.cell r "status_normalizado") sSel with
        | false => simp [h2]
        | true =>
          cases h1 : (colDept.isNone
              || cellIn (t.cell r "departamento_normalizado") dSel) with
          | false => simp [h1]
          | true =>
            simp only [h1, h2, Bool.and_true, Bool.true_and, if_true]
            cases hpf : parseDataDayFirst ((t.cell r cd).getD "") with
            | none => simp [hpf]
            | some rd =>
              simp only [hpf]
              have htake : (r ++ [(some (fmtTimestamp rd) : Cell)]).take t.cols.length
                  = r := by
                rw [List.take_append_of_le_length
                  (le_of_eq (hrect r hr).symm), ← hrect r hr]
                exact List.take_length r
              by_cases hle : now - (dias : Int) * 86400 ≤ daySecs rd
              · simp only [if_pos hle, decide_eq_true hle, Option.some_bind,
                  apply_ite (Option.map (fun r => List.take t.cols.length r)),
                  Option.map_some', Option.map_none', htake, Bool.and_true,
                  Bool.true_and]
              · rw [if_neg hle]
                simp only [decide_eq_false hle, Bool.false_and]
                rfl
  exact ⟨main, main ▸ List.filter_sublist t.rows⟩

/-- Input used to refute C1 as stated: one row, department column present. -/
def tabC1 : Table := ⟨["Status", "Setor"], [[some "A", some "TI"]]⟩

/-- Table `tabC1` after the Normalizer. -/
def tabC1N : Table := normalizar tabC1 "Status" (some "Setor")

/-- C1, counterexample: with an empty selected-department set (department
column present) the engine keeps all rows, but the conjunction of the four
§4.4 predicates (`specFilterEngine`) keeps none — the Filtered Table is not
always "exactly the rows satisfying all four predicates". -/
theorem c1_empty_dept_cex :
    (aplicarFiltros (some "Setor") none [] ["A"] .todo "" 0 tabC1N).rows.length = 1
    ∧ (specFilterEngine (some "Setor") none [] ["A"] .todo "" 0 tabC1N).rows.length = 0 := by
  decide

/-- Table for the C1 witness: the spec's §8 three-row scenario, normalized. -/
def tabC1W : Table :=
  normalizar
    ⟨["Status", "Setor", "Data", "Cliente"],
     [[some "Aberta", some "TI", some "01/03/2024", some "Ana"],
      [some "Concluída", some "RH", some "15/02/2024", some "Bruno"],
      [some "Aberta", some "TI", some "20/02/2024", some "Carla"]]⟩
    "Status" (some "Setor")

/-- C1, witness: on the spec scenario (status {Aberta}, department {TI},
all-time) the engine result equals the conjunctive filter and has exactly 2
rows. -/
theorem c1_filter_engine_witness :
    (((aplicarFiltros (some "Setor") (some "Data") ["TI"] ["Aberta"] .todo "" 0
          tabC1W).rows.map (fun r => r.take tabC1W.cols.length))
        = tabC1W.rows.filter
            (rowPredCode tabC1W (some "Setor") (some "Data") ["TI"] ["Aberta"] .todo "" 0)
      ∧ ((aplicarFiltros (some "Setor") (some "Data") ["TI"] ["Aberta"] .todo "" 0
          tabC1W).rows.map (fun r => r.take tabC1W.cols.length)).Sublist tabC1W.rows)
    ∧ (aplicarFiltros (some "Setor") (some "Data") ["TI"] ["Aberta"] .todo "" 0
        tabC1W).rows.length = 2 :=
  ⟨c1_filter_engine tabC1W (some "Setor") (some "Data") ["TI"] ["Aberta"] .todo "" 0
      (by decide) (by decide) (by decide) (Or.inr (by decide)),
    by decide⟩

/-! ## CSV export and re-load (C8)

Models `df_filtrado.to_csv(index=False)` (app.py line 600) and the CSV arm
of `carregar_dados` (app.py lines 54–68): `pd.read_csv` followed by
`dropna(axis=1, how='all')` and the caller's emptiness check
(lines 75–77). -/

end Assistencia
